import Mathlib

/-!
Shallow embedding of `src/main.go` (mammenj/simplerest): a minimal HTTP CRUD
service over a single SQLite table `items(id INTEGER PRIMARY KEY AUTOINCREMENT,
name TEXT NOT NULL UNIQUE)`.

The embedding models:
- the persisted table as a list of rows plus the AUTOINCREMENT sequence
  (SQLite's `sqlite_sequence` entry, the largest rowid ever assigned);
- each of the five handlers (`getItemsHandler`, `getItemByIDHandler`,
  `createItemHandler`, `updateItemHandler`, `deleteItemHandler`) as a pure
  function from the table state and the request pieces the handler reads
  (path id string, decoded JSON body) to an HTTP status, a response body and
  the resulting table state;
- Go's `strconv.Atoi` for path-id parsing, and the observable serialization
  performed by `json.Encoder` / `http.Error` (in particular: a nil Go slice
  encodes as the JSON literal `null`, and `Encoder.Encode` / `http.Error`
  append a newline).

A JSON request body is modelled as `Option Item`: `some it` when
`json.Decoder.Decode` into the `Item` struct succeeds (a missing `name` field
decodes to the Go zero value `""`, a present `id` field is decoded and later
overwritten by the handlers), `none` when it fails (malformed JSON), which the
handlers answer with 400.

Store-level I/O faults (connectivity loss, disk errors) are outside the model;
the deterministic store errors — the UNIQUE(name) constraint violations on
INSERT and UPDATE — are modelled exactly as SQLite raises them.
-/

namespace SimpleRest

/-- The `Item` struct of `main.go`: `ID int`, `Name string`
(JSON keys `id`, `name`). Go's `int` is 64-bit here; ids stay far below the
bound in every modelled run, so `Int` is used. -/
structure Item where
  id : Int
  name : String
deriving DecidableEq

/-- The persisted state: the `items` table rows in storage (rowid) order, and
the AUTOINCREMENT sequence `seq` — SQLite's record of the largest rowid ever
handed out for the table (0 when no row was ever inserted). -/
structure DB where
  rows : List Item
  seq : Int
deriving DecidableEq

/-- The state right after `initDB` on a fresh store: empty table, sequence 0. -/
def initialDB : DB := ⟨[], 0⟩

/-- What a handler writes into the response body, before serialization. -/
inductive Body where
  /-- No body at all (`w.WriteHeader(204)` alone). -/
  | empty
  /-- Plaintext error from `http.Error`. -/
  | text (msg : String)
  /-- One `Item` serialized by `json.Encoder.Encode`. -/
  | jsonItem (it : Item)
  /-- The item slice serialized by `json.Encoder.Encode`; `none` models the
  nil Go slice (`var items []Item` with zero appends), which encodes as
  `null`, while `some l` models a slice holding the rows in order. -/
  | jsonItems (its : Option (List Item))
deriving DecidableEq

/-- The observable outcome of one handler call: HTTP status, response body,
and the table state afterwards. -/
structure HResult where
  status : Nat
  body : Body
  db : DB
deriving DecidableEq

/-! ### Go `strconv.Atoi` -/

/-- Decimal value of a digit string (most significant first). -/
def digitsToNat (l : List Char) : Nat :=
  l.foldl (fun a c => a * 10 + (c.toNat - 48)) 0

/-- Sign-adjusted value of the digit part, checked against the 64-bit `int`
range (out of range is `ErrRange`); at least one digit, all characters ASCII
digits. -/
def parseDigits (neg : Bool) (ds : List Char) : Option Int :=
  if ds.isEmpty then none
  else if ds.all Char.isDigit then
    let v : Int := if neg then -(digitsToNat ds : Int) else (digitsToNat ds : Int)
    if v < -(2 ^ 63) ∨ v > 2 ^ 63 - 1 then none else some v
  else none

/-- Go's `strconv.Atoi`: an optional single `+`/`-` sign, then one or more
ASCII digits and nothing else; values outside the 64-bit `int` range give
`ErrRange`. `none` models a non-nil error (the handlers answer it with 400). -/
def atoi (s : String) : Option Int :=
  match s.toList with
  | [] => none
  | c :: cs =>
    if c = '-' then parseDigits true cs
    else if c = '+' then parseDigits false cs
    else parseDigits false (c :: cs)

/-! ### SQL statement semantics -/

/-- Largest rowid currently in the table (0 for an empty table). -/
def maxRowId (rows : List Item) : Int :=
  rows.foldl (fun a r => max a r.id) 0

/-- The rowid SQLite's AUTOINCREMENT assigns to the next INSERT:
one more than the larger of the stored sequence and the largest rowid
present in the table. -/
def newId (db : DB) : Int :=
  max db.seq (maxRowId db.rows) + 1

/-- `SELECT id, name FROM items WHERE id = ?`: the first (and, with the
primary key, only) matching row. -/
def findById (rows : List Item) (i : Int) : Option Item :=
  rows.find? (fun r => r.id == i)

/-- Whether `INSERT INTO items (name) VALUES (?)` would violate
`UNIQUE(name)`: some row already has this name. -/
def nameExists (rows : List Item) (n : String) : Bool :=
  rows.any (fun r => r.name == n)

/-- Whether `UPDATE items SET name = ? WHERE id = ?` would violate
`UNIQUE(name)`: some row other than the updated one already has the new
name. -/
def nameConflict (rows : List Item) (i : Int) (n : String) : Bool :=
  rows.any (fun r => r.id != i && r.name == n)

/-- Number of rows matched by `WHERE id = ?` — the `RowsAffected` count of
the UPDATE and DELETE statements. -/
def countId (rows : List Item) (i : Int) : Nat :=
  rows.countP (fun r => r.id == i)

/-! ### The five handlers -/

/-- `getItemsHandler`: `SELECT id, name FROM items`, scan every row into the
slice `items` (which stays the nil slice when the table is empty), respond
200 with the encoded slice. -/
def getItemsHandler (db : DB) : HResult :=
  ⟨200, Body.jsonItems (if db.rows.isEmpty then none else some db.rows), db⟩

/-- `getItemByIDHandler`: parse the path id (`strconv.Atoi`, failure → 400),
`SELECT ... WHERE id = ?`; `sql.ErrNoRows` → 404, otherwise 200 with the
row. -/
def getItemByIDHandler (db : DB) (idStr : String) : HResult :=
  match atoi idStr with
  | none => ⟨400, Body.text "Invalid item ID", db⟩
  | some i =>
    match findById db.rows i with
    | none => ⟨404, Body.text "Item not found", db⟩
    | some it => ⟨200, Body.jsonItem it, db⟩

/-- `createItemHandler`: decode the JSON body (failure → 400),
`INSERT INTO items (name) VALUES (?)` (a UNIQUE(name) violation is a store
error → 500 with the table unchanged), set the echoed item's ID from
`LastInsertId`, respond 201. -/
def createItemHandler (db : DB) (body : Option Item) : HResult :=
  match body with
  | none => ⟨400, Body.text "Invalid request body", db⟩
  | some item =>
    if nameExists db.rows item.name then
      ⟨500, Body.text "Failed to create item", db⟩
    else
      ⟨201, Body.jsonItem ⟨newId db, item.name⟩,
        ⟨db.rows ++ [⟨newId db, item.name⟩], newId db⟩⟩

/-- `updateItemHandler`: parse the path id (failure → 400), decode the body
(failure → 400), `UPDATE items SET name = ? WHERE id = ?`. Zero matched
rows → `RowsAffected` is 0 → 404; a matched row whose new name collides
with another row's name is a UNIQUE(name) violation → 500 with the table
unchanged (the statement aborts); otherwise 200, echoing the decoded item
with its ID overwritten by the path id. -/
def updateItemHandler (db : DB) (idStr : String) (body : Option Item) : HResult :=
  match atoi idStr with
  | none => ⟨400, Body.text "Invalid item ID", db⟩
  | some i =>
    match body with
    | none => ⟨400, Body.text "Invalid request body", db⟩
    | some item =>
      if countId db.rows i = 0 then
        ⟨404, Body.text "Item not found or no changes made", db⟩
      else if nameConflict db.rows i item.name then
        ⟨500, Body.text "Failed to update item", db⟩
      else
        ⟨200, Body.jsonItem ⟨i, item.name⟩,
          ⟨db.rows.map (fun r => if r.id == i then ⟨r.id, item.name⟩ else r), db.seq⟩⟩

/-- `deleteItemHandler`: parse the path id (failure → 400),
`DELETE FROM items WHERE id = ?`; zero affected rows → 404, otherwise 204
with an empty body. Deletion does not touch the AUTOINCREMENT sequence. -/
def deleteItemHandler (db : DB) (idStr : String) : HResult :=
  match atoi idStr with
  | none => ⟨400, Body.text "Invalid item ID", db⟩
  | some i =>
    if countId db.rows i = 0 then
      ⟨404, Body.text "Item not found", db⟩
    else
      ⟨204, Body.empty, ⟨db.rows.filter (fun r => r.id != i), db.seq⟩⟩

/-! ### Serialization (the bytes on the wire) -/

/-- JSON string escaping as done by `encoding/json` for the characters that
can occur here (quote and backslash; the handlers' names need no more). -/
def escapeJson (s : String) : String :=
  s.foldl
    (fun acc c =>
      if c = '"' then acc ++ "\\\""
      else if c = '\\' then acc ++ "\\\\"
      else acc.push c) ""

/-- `encoding/json` rendering of one `Item`: struct fields in declaration
order, so `id` before `name`. -/
def renderItem (it : Item) : String :=
  "\x7b\"id\":" ++ toString it.id ++ ",\"name\":\"" ++ escapeJson it.name ++ "\"\x7d"

/-- `encoding/json` rendering of the item slice: the nil slice renders as the
literal `null`, a non-nil slice as a JSON array. -/
def renderItems : Option (List Item) → String
  | none => "null"
  | some l => "[" ++ String.intercalate "," (l.map renderItem) ++ "]"

/-- The response body bytes: `http.Error` and `json.Encoder.Encode` both
append a newline; a 204 writes nothing. -/
def renderBody : Body → String
  | Body.empty => ""
  | Body.text m => m ++ "\n"
  | Body.jsonItem it => renderItem it ++ "\n"
  | Body.jsonItems o => renderItems o ++ "\n"

/-! ### Storage invariant -/

/-- Well-formedness of a table state: rowids pairwise distinct (PRIMARY KEY),
names pairwise distinct (UNIQUE), and the AUTOINCREMENT sequence at least
every present rowid (SQLite maintains it as the largest rowid ever
assigned). Names are `String`s, hence never NULL. -/
def WF (db : DB) : Prop :=
  (db.rows.map Item.id).Nodup ∧ (db.rows.map Item.name).Nodup ∧
    ∀ r ∈ db.rows, r.id ≤ db.seq

instance : DecidablePred WF := fun db => by
  unfold WF; infer_instance

/-! ### Theorems -/

/-- C2 counterexample: on the freshly initialized (empty) table, `GET /items`
does respond 200, but the handler's slice is still the nil slice, which
`json.Encoder` serializes as the JSON literal `null` — not the empty array
`[]` the claim states. -/
theorem empty_list_claim_cex :
    (getItemsHandler initialDB).status = 200 ∧
      (getItemsHandler initialDB).body = Body.jsonItems none ∧
      renderBody (getItemsHandler initialDB).body = "null\n" ∧
      renderBody (getItemsHandler initialDB).body ≠ "[]\n" ∧
      (getItemsHandler initialDB).body ≠ Body.jsonItems (some []) := by
  refine ⟨rfl, rfl, rfl, ?_, ?_⟩ <;> decide

/-- C2 amended: `GET /items` on a freshly initialized (empty) items table
responds 200 — not an error — but its body is the JSON literal `null` (the
handler's nil slice serialized), not the empty array `[]`. -/
theorem empty_list_returns_null :
    getItemsHandler initialDB = ⟨200, Body.jsonItems none, initialDB⟩ ∧
      renderBody (getItemsHandler initialDB).body = "null\n" := ⟨rfl, rfl⟩

/-- C10: `GET /items` and `GET /items/{id}` never mutate the items table —
whatever the starting state and path id string (hence whatever the outcome),
the table afterwards is the table before. -/
theorem reads_pure (db : DB) (idStr : String) :
    (getItemsHandler db).db = db ∧ (getItemByIDHandler db idStr).db = db := by
  refine ⟨rfl, ?_⟩
  cases h : atoi idStr with
  | none => simp [getItemByIDHandler, h]
  | some i =>
    cases hf : findById db.rows i <;> simp [getItemByIDHandler, h, hf]

/-- C4: if some row already holds name `b.name`, `POST /items` with that name
hits the UNIQUE(name) constraint: the handler responds 500 (not a distinct
conflict status) and the table is unchanged. -/
theorem create_duplicate_name_500 (db : DB) (b : Item)
    (hdup : ∃ r ∈ db.rows, r.name = b.name) :
    createItemHandler db (some b) = ⟨500, Body.text "Failed to create item", db⟩ := by
  have hex : nameExists db.rows b.name = true := by
    rcases hdup with ⟨r, hr, hname⟩
    simp [nameExists, List.any_eq_true]
    exact ⟨r, hr, hname⟩
  simp [createItemHandler, hex]

/-- Witness for C4 at a concrete table already holding the name. -/
theorem create_duplicate_name_500_witness :
    createItemHandler ⟨[⟨1, "apple"⟩], 1⟩ (some ⟨0, "apple"⟩) =
      ⟨500, Body.text "Failed to create item", ⟨[⟨1, "apple"⟩], 1⟩⟩ :=
  create_duplicate_name_500 ⟨[⟨1, "apple"⟩], 1⟩ ⟨0, "apple"⟩ ⟨⟨1, "apple"⟩, by simp, rfl⟩

/-- C5: a path id that `strconv.Atoi` rejects makes `GET /items/{id}`,
`PUT /items/{id}` (whatever the body) and `DELETE /items/{id}` respond 400
with the table untouched; a malformed JSON body makes `POST /items`, and
`PUT /items/{id}` for every path id string, respond 400 with the table
untouched. -/
theorem validation_no_mutation (db : DB) (idStr : String) (body : Option Item)
    (hbad : atoi idStr = none) :
    getItemByIDHandler db idStr = ⟨400, Body.text "Invalid item ID", db⟩ ∧
      updateItemHandler db idStr body = ⟨400, Body.text "Invalid item ID", db⟩ ∧
      deleteItemHandler db idStr = ⟨400, Body.text "Invalid item ID", db⟩ ∧
      createItemHandler db none = ⟨400, Body.text "Invalid request body", db⟩ ∧
      ∀ s : String, (updateItemHandler db s none).status = 400 ∧
        (updateItemHandler db s none).db = db := by
  refine ⟨?_, ?_, ?_, rfl, ?_⟩
  · simp [getItemByIDHandler, hbad]
  · simp [updateItemHandler, hbad]
  · simp [deleteItemHandler, hbad]
  · intro s
    unfold updateItemHandler
    cases atoi s <;> exact ⟨rfl, rfl⟩

/-- Witness for C5: `"abc"` does not parse as an integer. -/
theorem validation_no_mutation_witness :
    getItemByIDHandler initialDB "abc" = ⟨400, Body.text "Invalid item ID", initialDB⟩ ∧
      updateItemHandler initialDB "abc" (some ⟨0, "x"⟩) =
        ⟨400, Body.text "Invalid item ID", initialDB⟩ ∧
      deleteItemHandler initialDB "abc" = ⟨400, Body.text "Invalid item ID", initialDB⟩ ∧
      createItemHandler initialDB none = ⟨400, Body.text "Invalid request body", initialDB⟩ ∧
      ∀ s : String, (updateItemHandler initialDB s none).status = 400 ∧
        (updateItemHandler initialDB s none).db = initialDB :=
  validation_no_mutation initialDB "abc" (some ⟨0, "x"⟩) (by decide)

/-- C3 counterexample: the storage layer does not force names to be
non-empty. SQLite's `NOT NULL` rejects only NULL, not the empty string, and
the handler inserts whatever string the body decodes to — so `POST /items`
whose body decodes to the zero-value name `""` (for example the body
`{}`, with no `name` key) succeeds with 201 and persists an item whose name
is the empty string. -/
theorem storage_nonempty_name_cex :
    (createItemHandler initialDB (some ⟨0, ""⟩)).status = 201 ∧
      ∃ r ∈ (createItemHandler initialDB (some ⟨0, ""⟩)).db.rows, r.name = "" :=
  ⟨rfl, ⟨1, ""⟩, by simp [createItemHandler, nameExists, initialDB, newId, maxRowId], rfl⟩

/-- C7: for an integer id `i` matching no row, `GET /items/{id}`,
`PUT /items/{id}` (well-formed body) and `DELETE /items/{id}` all respond
404 with the table unchanged; in particular `GET /items/999999` on the
freshly initialized table responds 404. -/
theorem not_found_404 (db : DB) (idStr : String) (i : Int) (b : Item)
    (hid : atoi idStr = some i) (habs : ∀ r ∈ db.rows, r.id ≠ i) :
    getItemByIDHandler db idStr = ⟨404, Body.text "Item not found", db⟩ ∧
      updateItemHandler db idStr (some b) =
        ⟨404, Body.text "Item not found or no changes made", db⟩ ∧
      deleteItemHandler db idStr = ⟨404, Body.text "Item not found", db⟩ ∧
      (getItemByIDHandler initialDB "999999").status = 404 := by
  have hfind : findById db.rows i = none := by
    simp [findById, List.find?_eq_none]
    exact habs
  have hcount : countId db.rows i = 0 := by
    simp [countId, List.countP_eq_zero]
    exact habs
  refine ⟨?_, ?_, ?_, ?_⟩
  · simp [getItemByIDHandler, hid, hfind]
  · simp [updateItemHandler, hid, hcount]
  · simp [deleteItemHandler, hid, hcount]
  · decide

/-- Witness for C7: id 5 on a one-row table holding only id 1. -/
theorem not_found_404_witness :
    getItemByIDHandler ⟨[⟨1, "apple"⟩], 1⟩ "5" =
        ⟨404, Body.text "Item not found", ⟨[⟨1, "apple"⟩], 1⟩⟩ ∧
      updateItemHandler ⟨[⟨1, "apple"⟩], 1⟩ "5" (some ⟨0, "pear"⟩) =
        ⟨404, Body.text "Item not found or no changes made", ⟨[⟨1, "apple"⟩], 1⟩⟩ ∧
      deleteItemHandler ⟨[⟨1, "apple"⟩], 1⟩ "5" =
        ⟨404, Body.text "Item not found", ⟨[⟨1, "apple"⟩], 1⟩⟩ ∧
      (getItemByIDHandler initialDB "999999").status = 404 :=
  not_found_404 ⟨[⟨1, "apple"⟩], 1⟩ "5" 5 ⟨0, "pear"⟩ (by decide) (by decide)

/-- C8: when `DELETE /items/{id}` succeeds with 204, its body is empty, the
table afterwards is exactly the old table with the rows matching the path id
removed (and nothing else), and a subsequent `GET /items/{id}` for the same
path id responds 404 without touching the table. -/
theorem delete_then_get (db : DB) (idStr : String) (i : Int) (out : HResult)
    (hid : atoi idStr = some i) (hout : deleteItemHandler db idStr = out)
    (h204 : out.status = 204) :
    out.body = Body.empty ∧
      out.db.rows = db.rows.filter (fun r => r.id != i) ∧
      (getItemByIDHandler out.db idStr).status = 404 ∧
      (getItemByIDHandler out.db idStr).db = out.db := by
  by_cases hc : countId db.rows i = 0
  · simp [deleteItemHandler, hid, hc] at hout
    rw [← hout] at h204
    simp at h204
  · simp [deleteItemHandler, hid, hc] at hout
    have hfind : findById (db.rows.filter (fun r => r.id != i)) i = none := by
      simp [findById, List.find?_eq_none, List.mem_filter]
    rw [← hout]
    refine ⟨rfl, rfl, ?_, ?_⟩ <;> simp [getItemByIDHandler, hid, hfind]

/-- Witness for C8: deleting id 2 from a two-row table. -/
theorem delete_then_get_witness :
    (deleteItemHandler ⟨[⟨1, "apple"⟩, ⟨2, "banana"⟩], 2⟩ "2").body = Body.empty ∧
      (deleteItemHandler ⟨[⟨1, "apple"⟩, ⟨2, "banana"⟩], 2⟩ "2").db.rows =
        [⟨1, "apple"⟩, ⟨2, "banana"⟩].filter (fun r => r.id != 2) ∧
      (getItemByIDHandler (deleteItemHandler ⟨[⟨1, "apple"⟩, ⟨2, "banana"⟩], 2⟩ "2").db
          "2").status = 404 ∧
      (getItemByIDHandler (deleteItemHandler ⟨[⟨1, "apple"⟩, ⟨2, "banana"⟩], 2⟩ "2").db
          "2").db = (deleteItemHandler ⟨[⟨1, "apple"⟩, ⟨2, "banana"⟩], 2⟩ "2").db :=
  delete_then_get ⟨[⟨1, "apple"⟩, ⟨2, "banana"⟩], 2⟩ "2" 2
    (deleteItemHandler ⟨[⟨1, "apple"⟩, ⟨2, "banana"⟩], 2⟩ "2") (by decide) rfl (by decide)

/-! ### Helper lemmas about the AUTOINCREMENT id -/

lemma le_foldl_max (rows : List Item) :
    ∀ a : Int, a ≤ rows.foldl (fun b r => max b r.id) a := by
  induction rows with
  | nil => intro a; exact le_refl a
  | cons x xs ih =>
    intro a
    exact le_trans (le_max_left a x.id) (ih (max a x.id))

lemma mem_le_foldl_max (rows : List Item) :
    ∀ (a : Int) (r : Item), r ∈ rows → r.id ≤ rows.foldl (fun b r => max b r.id) a := by
  induction rows with
  | nil => intro a r hr; cases hr
  | cons x xs ih =>
    intro a r hr
    rcases List.mem_cons.mp hr with h | h
    · subst h
      exact le_trans (le_max_right a r.id) (le_foldl_max xs (max a r.id))
    · exact ih (max a x.id) r h

/-- Every rowid in the table is below the id the next INSERT will assign. -/
lemma mem_lt_newId (db : DB) : ∀ r ∈ db.rows, r.id < newId db := by
  intro r hr
  have h1 : r.id ≤ maxRowId db.rows := mem_le_foldl_max db.rows 0 r hr
  have h2 : maxRowId db.rows ≤ max db.seq (maxRowId db.rows) := le_max_right _ _
  unfold newId
  omega

/-- The stored sequence is below the id the next INSERT will assign. -/
lemma seq_lt_newId (db : DB) : db.seq < newId db := by
  have := le_max_left db.seq (maxRowId db.rows)
  unfold newId
  omega

/-- Updating the name of the row matching `i` leaves the list of rowids
untouched. -/
lemma ids_map_update (rows : List Item) (i : Int) (n : String) :
    ((rows.map fun r => if r.id == i then ⟨r.id, n⟩ else r).map Item.id) =
      rows.map Item.id := by
  induction rows with
  | nil => rfl
  | cons x xs ih =>
    simp only [List.map_cons]
    rw [ih]
    by_cases h : x.id = i <;> simp [h]

/-- C1: creating an item whose name is not yet taken succeeds with 201,
echoing the store-assigned id `newId db` and the requested name, and a
subsequent `GET /items/{id}` for a path id parsing to that id responds 200
with exactly `{id, name}`. -/
theorem roundtrip_create_get (db : DB) (b : Item) (idStr : String) (out : HResult)
    (hfresh : ∀ r ∈ db.rows, r.name ≠ b.name)
    (hout : createItemHandler db (some b) = out)
    (hid : atoi idStr = some (newId db)) :
    out.status = 201 ∧ out.body = Body.jsonItem ⟨newId db, b.name⟩ ∧
      getItemByIDHandler out.db idStr =
        ⟨200, Body.jsonItem ⟨newId db, b.name⟩, out.db⟩ := by
  have hex : nameExists db.rows b.name = false := by
    simp [nameExists]
    exact hfresh
  simp [createItemHandler, hex] at hout
  have hfind : findById (db.rows ++ [⟨newId db, b.name⟩]) (newId db) =
      some ⟨newId db, b.name⟩ := by
    have hnone : db.rows.find? (fun r => r.id == newId db) = none := by
      simp [List.find?_eq_none]
      intro r hr
      exact Int.ne_of_lt (mem_lt_newId db r hr)
    simp [findById, List.find?_append, hnone, List.find?_cons]
  rw [← hout]
  exact ⟨rfl, rfl, by simp [getItemByIDHandler, hid, hfind]⟩

/-- Witness for C1: creating "banana" next to "apple" and fetching id 2. -/
theorem roundtrip_create_get_witness :
    (createItemHandler ⟨[⟨1, "apple"⟩], 1⟩ (some ⟨0, "banana"⟩)).status = 201 ∧
      (createItemHandler ⟨[⟨1, "apple"⟩], 1⟩ (some ⟨0, "banana"⟩)).body =
        Body.jsonItem ⟨newId ⟨[⟨1, "apple"⟩], 1⟩, "banana"⟩ ∧
      getItemByIDHandler (createItemHandler ⟨[⟨1, "apple"⟩], 1⟩ (some ⟨0, "banana"⟩)).db "2" =
        ⟨200, Body.jsonItem ⟨newId ⟨[⟨1, "apple"⟩], 1⟩, "banana"⟩,
          (createItemHandler ⟨[⟨1, "apple"⟩], 1⟩ (some ⟨0, "banana"⟩)).db⟩ :=
  roundtrip_create_get ⟨[⟨1, "apple"⟩], 1⟩ ⟨0, "banana"⟩ "2"
    (createItemHandler ⟨[⟨1, "apple"⟩], 1⟩ (some ⟨0, "banana"⟩)) (by decide) rfl (by decide)

/-- C6: a `PUT /items/{id}` that succeeds (200) echoes the path id — not any
id the body carried — together with the body's name, and rewrites exactly
the name of the rows matching the path id: every other row is carried over
unchanged, and the list of rowids is exactly what it was. -/
theorem update_changes_only_name (db : DB) (idStr : String) (b : Item) (i : Int)
    (out : HResult) (hid : atoi idStr = some i)
    (hout : updateItemHandler db idStr (some b) = out) (h200 : out.status = 200) :
    out.body = Body.jsonItem ⟨i, b.name⟩ ∧
      out.db.rows = db.rows.map (fun r => if r.id == i then ⟨r.id, b.name⟩ else r) ∧
      (∀ r ∈ db.rows, r.id ≠ i → r ∈ out.db.rows) ∧
      out.db.rows.map Item.id = db.rows.map Item.id ∧
      out.db.seq = db.seq := by
  subst hout
  by_cases hc0 : countId db.rows i = 0
  · simp [updateItemHandler, hid, hc0] at h200
  · by_cases hcf : nameConflict db.rows i b.name = true
    · simp [updateItemHandler, hid, hc0, hcf] at h200
    · simp only [updateItemHandler, hid, if_neg hc0, if_neg hcf]
      refine ⟨trivial, trivial, ?_, ids_map_update db.rows i b.name, trivial⟩
      intro r hr hne
      refine List.mem_map.mpr ⟨r, hr, ?_⟩
      simp [hne]

/-- Witness for C6: renaming id 1 to "avocado" with a stray id 9 in the
body. -/
theorem update_changes_only_name_witness :
    (updateItemHandler ⟨[⟨1, "apple"⟩, ⟨2, "banana"⟩], 2⟩ "1" (some ⟨9, "avocado"⟩)).body =
        Body.jsonItem ⟨1, "avocado"⟩ ∧
      (updateItemHandler ⟨[⟨1, "apple"⟩, ⟨2, "banana"⟩], 2⟩ "1" (some ⟨9, "avocado"⟩)).db.rows =
        [⟨1, "apple"⟩, ⟨2, "banana"⟩].map
          (fun r => if r.id == 1 then ⟨r.id, "avocado"⟩ else r) ∧
      (∀ r ∈ ([⟨1, "apple"⟩, ⟨2, "banana"⟩] : List Item), r.id ≠ 1 →
        r ∈ (updateItemHandler ⟨[⟨1, "apple"⟩, ⟨2, "banana"⟩], 2⟩ "1"
          (some ⟨9, "avocado"⟩)).db.rows) ∧
      (updateItemHandler ⟨[⟨1, "apple"⟩, ⟨2, "banana"⟩], 2⟩ "1"
          (some ⟨9, "avocado"⟩)).db.rows.map Item.id =
        ([⟨1, "apple"⟩, ⟨2, "banana"⟩] : List Item).map Item.id ∧
      (updateItemHandler ⟨[⟨1, "apple"⟩, ⟨2, "banana"⟩], 2⟩ "1"
          (some ⟨9, "avocado"⟩)).db.seq = 2 :=
  update_changes_only_name ⟨[⟨1, "apple"⟩, ⟨2, "banana"⟩], 2⟩ "1" ⟨9, "avocado"⟩ 1
    (updateItemHandler ⟨[⟨1, "apple"⟩, ⟨2, "banana"⟩], 2⟩ "1" (some ⟨9, "avocado"⟩))
    (by decide) rfl (by decide)

/-- C9: ids are store-assigned and monotone — a successful create returns
exactly the next AUTOINCREMENT id, which is strictly greater than the stored
sequence (hence than every id ever assigned) and than every id in the table,
and becomes the new sequence; and ids are immutable — update leaves the list
of rowids exactly as it was (whatever the outcome), and delete only ever
removes rows. -/
theorem id_assignment (db : DB) (b : Item) (idStr : String) (body : Option Item)
    (h201 : (createItemHandler db (some b)).status = 201) :
    ((createItemHandler db (some b)).body = Body.jsonItem ⟨newId db, b.name⟩ ∧
        db.seq < newId db ∧ (∀ r ∈ db.rows, r.id < newId db) ∧
        (createItemHandler db (some b)).db.seq = newId db ∧
        (createItemHandler db (some b)).db.rows = db.rows ++ [⟨newId db, b.name⟩]) ∧
      (updateItemHandler db idStr body).db.rows.map Item.id = db.rows.map Item.id ∧
      ∀ r ∈ (deleteItemHandler db idStr).db.rows, r ∈ db.rows := by
  refine ⟨?_, ?_, ?_⟩
  · by_cases hex : nameExists db.rows b.name = true
    · simp [createItemHandler, hex] at h201
    · simp at hex
      simp [createItemHandler, hex]
      exact ⟨seq_lt_newId db, mem_lt_newId db⟩
  · cases h : atoi idStr with
    | none => simp [updateItemHandler, h]
    | some i =>
      cases body with
      | none => simp [updateItemHandler, h]
      | some it =>
        by_cases hc0 : countId db.rows i = 0
        · simp [updateItemHandler, h, hc0]
        · by_cases hcf : nameConflict db.rows i it.name = true
          · simp [updateItemHandler, h, hc0, hcf]
          · simp only [updateItemHandler, h, if_neg hc0, if_neg hcf]
            exact ids_map_update db.rows i it.name
  · cases h : atoi idStr with
    | none => simp [deleteItemHandler, h]
    | some i =>
      by_cases hc0 : countId db.rows i = 0
      · simp [deleteItemHandler, h, hc0]
      · simp only [deleteItemHandler, h, if_neg hc0]
        exact fun r hr => (List.mem_filter.mp hr).1

/-- Witness for C9: creating "banana" next to "apple" assigns id 2, with the
other conjuncts checked at path id "1" and body name "cherry". -/
theorem id_assignment_witness :
    ((createItemHandler ⟨[⟨1, "apple"⟩], 1⟩ (some ⟨0, "banana"⟩)).body =
          Body.jsonItem ⟨newId ⟨[⟨1, "apple"⟩], 1⟩, "banana"⟩ ∧
        (1 : Int) < newId ⟨[⟨1, "apple"⟩], 1⟩ ∧
        (∀ r ∈ ([⟨1, "apple"⟩] : List Item), r.id < newId ⟨[⟨1, "apple"⟩], 1⟩) ∧
        (createItemHandler ⟨[⟨1, "apple"⟩], 1⟩ (some ⟨0, "banana"⟩)).db.seq =
          newId ⟨[⟨1, "apple"⟩], 1⟩ ∧
        (createItemHandler ⟨[⟨1, "apple"⟩], 1⟩ (some ⟨0, "banana"⟩)).db.rows =
          [⟨1, "apple"⟩] ++ [⟨newId ⟨[⟨1, "apple"⟩], 1⟩, "banana"⟩]) ∧
      (updateItemHandler ⟨[⟨1, "apple"⟩], 1⟩ "1" (some ⟨0, "cherry"⟩)).db.rows.map Item.id =
        ([⟨1, "apple"⟩] : List Item).map Item.id ∧
      ∀ r ∈ (deleteItemHandler ⟨[⟨1, "apple"⟩], 1⟩ "1").db.rows,
        r ∈ ([⟨1, "apple"⟩] : List Item) :=
  id_assignment ⟨[⟨1, "apple"⟩], 1⟩ ⟨0, "banana"⟩ "1" (some ⟨0, "cherry"⟩) (by decide)

/-! ### Helper lemmas for the storage invariant -/

/-- The names after a successful UPDATE, row by row. -/
lemma names_after_update (rows : List Item) (i : Int) (n : String) :
    ((rows.map fun r => if r.id == i then ⟨r.id, n⟩ else r).map Item.name) =
      rows.map fun r => if r.id == i then n else r.name := by
  rw [List.map_map]
  apply List.map_congr_left
  intro r _
  by_cases h : r.id = i <;> simp [h]

/-- If the rowids are pairwise distinct, the names pairwise distinct, and no
row other than the one matching `i` carries the new name `n`, then the names
after the UPDATE are still pairwise distinct. -/
lemma names_map_update_nodup (i : Int) (n : String) :
    ∀ rows : List Item,
      (rows.map Item.id).Nodup →
      (rows.map Item.name).Nodup →
      (∀ r ∈ rows, r.id ≠ i → r.name ≠ n) →
      (rows.map fun r => if r.id == i then n else r.name).Nodup := by
  intro rows
  induction rows with
  | nil => intro _ _ _; simp
  | cons x xs ih =>
    intro hids hnames hconf
    rw [List.map_cons, List.nodup_cons] at hids hnames ⊢
    refine ⟨?_, ih hids.2 hnames.2 fun r hr => hconf r (List.mem_cons_of_mem x hr)⟩
    intro hmem
    rcases List.mem_map.mp hmem with ⟨s, hs, hseq⟩
    by_cases hxid : x.id = i
    · by_cases hsid : s.id = i
      · exact hids.1 (List.mem_map.mpr ⟨s, hs, by rw [hsid, hxid]⟩)
      · rw [if_neg (by simp [hsid]), if_pos (by simp [hxid])] at hseq
        exact hconf s (List.mem_cons_of_mem x hs) hsid hseq
    · by_cases hsid : s.id = i
      · rw [if_pos (by simp [hsid]), if_neg (by simp [hxid])] at hseq
        exact hconf x (List.mem_cons_self x xs) hxid hseq.symm
      · rw [if_neg (by simp [hsid]), if_neg (by simp [hxid])] at hseq
        exact hnames.1 (List.mem_map.mpr ⟨s, hs, hseq⟩)

/-- C3 amended: the freshly initialized table is well-formed, and every
handler — create, update, delete, and both reads — preserves
well-formedness: pairwise-distinct rowids, pairwise-distinct (never NULL)
names, and the AUTOINCREMENT sequence dominating every rowid. (Names need
not be non-empty: see the counterexample.) -/
theorem storage_invariant_preserved (db : DB) (idStr : String) (body : Option Item)
    (h : WF db) :
    WF initialDB ∧ WF (createItemHandler db body).db ∧
      WF (updateItemHandler db idStr body).db ∧
      WF (deleteItemHandler db idStr).db ∧
      WF (getItemsHandler db).db ∧ WF (getItemByIDHandler db idStr).db := by
  obtain ⟨hids, hnames, hseqb⟩ := id h
  refine ⟨by decide, ?_, ?_, ?_, h, ?_⟩
  · -- create
    cases body with
    | none => exact h
    | some b =>
      by_cases hex : nameExists db.rows b.name = true
      · simp only [createItemHandler, if_pos hex]
        exact h
      · rw [Bool.not_eq_true] at hex
        simp only [createItemHandler, hex, Bool.false_eq_true, if_false]
        have hfresh : ∀ r ∈ db.rows, r.name ≠ b.name := by
          intro r hr
          have := List.any_eq_false.mp hex r hr
          simpa using this
        refine ⟨?_, ?_, ?_⟩
        · rw [List.map_append, List.nodup_append]
          refine ⟨hids, List.nodup_singleton _, ?_⟩
          intro a ha hb
          simp at hb
          rcases List.mem_map.mp ha with ⟨r, hr, hid⟩
          have := mem_lt_newId db r hr
          omega
        · rw [List.map_append, List.nodup_append]
          refine ⟨hnames, List.nodup_singleton _, ?_⟩
          intro a ha hb
          simp at hb
          rcases List.mem_map.mp ha with ⟨r, hr, hname⟩
          exact hfresh r hr (hb ▸ hname)
        · intro r hr
          rcases List.mem_append.mp hr with hr | hr
          · have h1 := hseqb r hr
            have h2 := seq_lt_newId db
            simp only
            omega
          · simp at hr
            simp [hr]
  · -- update
    cases hid : atoi idStr with
    | none => simp only [updateItemHandler, hid]; exact h
    | some i =>
      cases body with
      | none => simp only [updateItemHandler, hid]; exact h
      | some b =>
        by_cases hc0 : countId db.rows i = 0
        · simp only [updateItemHandler, hid, if_pos hc0]
          exact h
        · by_cases hcf : nameConflict db.rows i b.name = true
          · simp only [updateItemHandler, hid, if_neg hc0, if_pos hcf]
            exact h
          · simp only [updateItemHandler, hid, if_neg hc0, if_neg hcf]
            have hconf : ∀ r ∈ db.rows, r.id ≠ i → r.name ≠ b.name := by
              rw [Bool.not_eq_true] at hcf
              intro r hr hrid
              have := List.any_eq_false.mp hcf r hr
              simpa [hrid] using this
            refine ⟨?_, ?_, ?_⟩
            · rw [ids_map_update]
              exact hids
            · rw [names_after_update]
              exact names_map_update_nodup i b.name db.rows hids hnames hconf
            · intro r hr
              rcases List.mem_map.mp hr with ⟨s, hs, hrs⟩
              have hle := hseqb s hs
              by_cases hsid : s.id = i
              · simp [hsid] at hrs
                rw [← hrs]
                show i ≤ db.seq
                omega
              · simp [hsid] at hrs
                rw [← hrs]
                exact hle
  · -- delete
    cases hid : atoi idStr with
    | none => simp only [deleteItemHandler, hid]; exact h
    | some i =>
      by_cases hc0 : countId db.rows i = 0
      · simp only [deleteItemHandler, hid, if_pos hc0]
        exact h
      · simp only [deleteItemHandler, hid, if_neg hc0]
        refine ⟨?_, ?_, ?_⟩
        · exact hids.sublist (List.Sublist.map Item.id (List.filter_sublist db.rows))
        · exact hnames.sublist (List.Sublist.map Item.name (List.filter_sublist db.rows))
        · intro r hr
          exact hseqb r (List.mem_filter.mp hr).1
  · -- get by id
    cases hid : atoi idStr with
    | none => simp only [getItemByIDHandler, hid]; exact h
    | some i =>
      cases hf : findById db.rows i with
      | none => simp only [getItemByIDHandler, hid, hf]; exact h
      | some it => simp only [getItemByIDHandler, hid, hf]; exact h

/-- Witness for C3 at a concrete well-formed two-row table. -/
theorem storage_invariant_preserved_witness :
    WF initialDB ∧
      WF (createItemHandler ⟨[⟨1, "apple"⟩, ⟨2, "banana"⟩], 2⟩ (some ⟨0, "cherry"⟩)).db ∧
      WF (updateItemHandler ⟨[⟨1, "apple"⟩, ⟨2, "banana"⟩], 2⟩ "1" (some ⟨0, "cherry"⟩)).db ∧
      WF (deleteItemHandler ⟨[⟨1, "apple"⟩, ⟨2, "banana"⟩], 2⟩ "1").db ∧
      WF (getItemsHandler ⟨[⟨1, "apple"⟩, ⟨2, "banana"⟩], 2⟩).db ∧
      WF (getItemByIDHandler ⟨[⟨1, "apple"⟩, ⟨2, "banana"⟩], 2⟩ "1").db :=
  storage_invariant_preserved ⟨[⟨1, "apple"⟩, ⟨2, "banana"⟩], 2⟩ "1" (some ⟨0, "cherry"⟩)
    (by decide)

end SimpleRest
